import Mathlib

/-!
Verification model of `dataGenerator.py` (repository DB-HW2).

The script generates four CSV files (products, customers, orders,
order_items) from Python's process-wide PRNG seeded with 42 plus a
seeded Faker instance, and bulk-loads them into MySQL.  We embed the
row-generation and CSV-writing pipeline:

* Python's `random` module is modelled as an abstract stream of
  uniform draws in `[0,1)` (`Rng.stream`, indexed by draw number) with
  a cursor.  Equal seeds yield equal streams, so determinism claims
  quantify over one shared stream.  `random.gauss` uses transcendental
  functions; it is modelled as a deterministic rational function of
  one draw (no claim depends on its distribution, only on determinism
  and on downstream rounding).
* The seeded `Faker` instance is a second independent stream; its
  name/city/date sampling (external library code) is modelled as one
  draw selecting from a fixed corpus, and `date_between` as a uniform
  day in a window ending at `today` (the spec: "Dates: uniform over a
  named historical window").
* Machine reals become `ℚ`; Python's `round(x, 2)` becomes decimal
  half-to-even rounding; `str(float)` for the generated two-decimal
  money values becomes shortest-decimal rendering.
* `random.randint(a, b)` raises `ValueError` when `b < a`, so it
  returns `Option`; generators that call it are `Option`-valued.
* Timestamps are seconds since the Unix epoch (`Int`), dates are days
  since the epoch; `datetime.utcnow()` becomes an explicit `now`
  parameter threaded to `daterange` and to Faker's `today`.
-/

/-- Abstract state of Python's seeded Mersenne Twister: an infinite
stream of uniform draws in `[0,1)` together with the index of the next
draw.  Two runs seeded identically share the same `stream`. -/
structure Rng where
  stream : Nat → ℚ
  k : Nat

/-- The next raw draw. -/
def rval (g : Rng) : ℚ := g.stream g.k

/-- Advance the draw cursor. -/
def rnext (g : Rng) : Rng := ⟨g.stream, g.k + 1⟩

/-- Model of `random.random()`. -/
def pyrandom (g : Rng) : ℚ × Rng := (rval g, rnext g)

/-- Model of `random.uniform(a, b)`: `a + (b-a)*random()`. -/
def pyuniform (a b : ℚ) (g : Rng) : ℚ × Rng :=
  (a + (b - a) * rval g, rnext g)

/-- Model of `random.randint(a, b)`: uniform integer in `[a, b]`;
raises `ValueError` (here: `none`) when the range `a..b` is empty. -/
def pyrandint (a b : Int) (g : Rng) : Option (Int × Rng) :=
  if b < a then none
  else some (a + Int.floor (rval g * ((b : ℚ) - a + 1)), rnext g)

/-- Model of `random.choice(seq)`: the element at index
`floor(random() * len)`, which is in range because `random() ∈ [0,1)`
and every list passed by the script is a non-empty literal; the
`Inhabited` default is unreachable there. -/
def pychoice {α : Type} [Inhabited α] (l : List α) (g : Rng) : α × Rng :=
  (l.getD (Int.floor (rval g * l.length)).toNat default, rnext g)

/-- Model of `random.gauss(mu, sigma)`: the library's transcendental
Box-Muller output is abstracted to a deterministic rational function
of one draw; the claims use only determinism and rounding downstream. -/
def pygauss (mu sigma : ℚ) (g : Rng) : ℚ × Rng :=
  (mu + sigma * (2 * rval g - 1), rnext g)

/-- The guarantee Python's `random.random()` provides for the raw
stream: every draw lies in `[0, 1)`. -/
def Unit01 (s : Nat → ℚ) : Prop := ∀ i, 0 ≤ s i ∧ s i < 1

/-- Abstract state of the seeded `Faker` instance (its own PRNG,
independent of the `random` module's). -/
structure Faker where
  stream : Nat → ℚ
  k : Nat

/-- Next Faker draw. -/
def Faker.rv (f : Faker) : ℚ := f.stream f.k

/-- Advance the Faker cursor. -/
def Faker.nx (f : Faker) : Faker := ⟨f.stream, f.k + 1⟩

/-- Modelled from the spec: `fake.date_between(start, "today")` is
"uniform over a named historical window"; one draw selecting a day in
`[today - back, today]` (days since the epoch). -/
def Faker.dateBetween (f : Faker) (back : Nat) (today : Int) : Int × Faker :=
  (today - back + Int.floor (f.rv * ((back : ℚ) + 1)), f.nx)

/-- The Faker locale corpus (external library data) from which names
and cities are drawn. -/
structure NameCorpus where
  firstNames : List String
  lastNames : List String
  cities : List String

/-- Modelled from the spec: a Faker categorical draw (`first_name`,
`last_name`, `city`) selects one corpus element per call. -/
def Faker.pick (f : Faker) (l : List String) : String × Faker :=
  (l.getD (Int.floor (f.rv * l.length)).toNat "", f.nx)

/-- Python's `round` to an integer: decimal rounding, ties to even. -/
def rhe (q : ℚ) : ℤ :=
  let f := Int.floor q
  if q - f < 1/2 then f
  else if 1/2 < q - f then f + 1
  else if f % 2 = 0 then f else f + 1

/-- Python's `round(x, 2)`. -/
def round2 (q : ℚ) : ℚ := (rhe (q * 100) : ℚ) / 100

/-- ASCII digit character for `n < 10`. -/
def digitChar10 (n : Nat) : Char := Char.ofNat (48 + n)

/-- Fuel-driven decimal digit list (most significant first); fuel
`n + 1` always suffices. -/
def decimalReprAux : Nat → Nat → List Char
  | 0, _ => []
  | fuel + 1, n =>
    if n < 10 then [digitChar10 n]
    else decimalReprAux fuel (n / 10) ++ [digitChar10 (n % 10)]

/-- The decimal numeral of a natural number, as Python's `str(int)`
prints it (characters, most significant first). -/
def decimalRepr (n : Nat) : List Char := decimalReprAux (n + 1) n

/-- `str(n)` for a natural number. -/
def natDecimal (n : Nat) : String := ⟨decimalRepr n⟩

/-- `str(z)` for an integer. -/
def intDecimal (z : Int) : String :=
  if z < 0 then "-" ++ natDecimal z.natAbs else natDecimal z.natAbs

/-- ASCII lower-casing of one character, as `str.lower()` acts on the
characters the generator produces. -/
def lowerChar (c : Char) : Char :=
  if 'A' ≤ c ∧ c ≤ 'Z' then Char.ofNat (c.toNat + 32) else c

/-- `str.lower()`. -/
def pyLower (s : String) : String := ⟨s.data.map lowerChar⟩

/-- The email built at `dataGenerator.py:163`:
`f"{first}.{last}.{cid}@example.com".lower()` (character-list form). -/
def emailChars (first last : List Char) (cid : Nat) : List Char :=
  (first ++ '.' :: last ++ '.' :: decimalRepr cid ++ "@example.com".data).map lowerChar

/-- The email built at `dataGenerator.py:163`. -/
def emailOf (first last : String) (cid : Nat) : String :=
  ⟨emailChars first.data last.data cid⟩

/-- Gregorian civil date (year, month, day) from days since
1970-01-01 (the standard days-to-civil algorithm). -/
def civilFromDays (z : Int) : Int × Nat × Nat :=
  let days := z + 719468
  let era := days.ediv 146097
  let doe := (days.emod 146097).toNat
  let yoe := (doe - doe / 1460 + doe / 36524 - doe / 146096) / 365
  let doy := doe - (365 * yoe + yoe / 4 - yoe / 100)
  let mp := (5 * doy + 2) / 153
  let d := doy - (153 * mp + 2) / 5 + 1
  let m := if mp < 10 then mp + 3 else mp - 9
  let y := era * 400 + yoe + (if m ≤ 2 then 1 else 0)
  (y, m, d)

/-- Zero-padded two-digit decimal. -/
def pad2 (n : Nat) : String := if n < 10 then "0" ++ natDecimal n else natDecimal n

/-- Zero-padded four-digit decimal. -/
def pad4 (n : Nat) : String :=
  if n < 10 then "000" ++ natDecimal n
  else if n < 100 then "00" ++ natDecimal n
  else if n < 1000 then "0" ++ natDecimal n
  else natDecimal n

/-- `date.isoformat()`: `YYYY-MM-DD` from days since the epoch. -/
def isoDate (days : Int) : String :=
  let c := civilFromDays days
  pad4 c.1.toNat ++ "-" ++ pad2 c.2.1 ++ "-" ++ pad2 c.2.2

/-- `dt.strftime("%Y-%m-%d %H:%M:%S")` from seconds since the epoch. -/
def fmtDateTime (secs : Int) : String :=
  let days := secs.ediv 86400
  let sod := (secs.emod 86400).toNat
  isoDate days ++ " " ++ pad2 (sod / 3600) ++ ":" ++ pad2 (sod % 3600 / 60)
    ++ ":" ++ pad2 (sod % 60)

/-- `str(float)` for the two-decimal money values the generator emits:
shortest decimal rendering (trailing zero digits dropped, at least one
fractional digit, as Python prints such floats). -/
def pyFloatRepr (q : ℚ) : String :=
  let m := Int.floor (q * 100)
  let a := m.natAbs
  let sign := if m < 0 then "-" else ""
  let whole := a / 100
  let frac := a % 100
  sign ++ natDecimal whole ++ "." ++
    (if frac = 0 then "0"
     else if frac % 10 = 0 then natDecimal (frac / 10)
     else if frac < 10 then "0" ++ natDecimal frac
     else natDecimal frac)

/-- One row of `products.csv` (`gen_products`, lines 140-152). -/
structure ProductRow where
  product_id : Nat
  category : String
  subcategory : String
  brand : String
  price : ℚ
  cost : ℚ
  created_at : Int
  is_active : Nat
deriving DecidableEq

/-- One row of `customers.csv` (`gen_customers`, lines 158-170). -/
structure CustomerRow where
  customer_id : Nat
  first_name : String
  last_name : String
  email : String
  signup_date : Int
  country : String
  city : String
  marketing_opt_in : Nat
  acquisition_source : String
deriving DecidableEq

/-- One row of `orders.csv` (`gen_orders`, lines 179-192). -/
structure OrderRow where
  order_id : Nat
  customer_id : Int
  order_date : Int
  status : String
  currency : String
  payment_method : String
  shipping_country : String
  discount : ℚ
  total_amount : ℚ
deriving DecidableEq

/-- One row of `order_items.csv` (`gen_order_items`, lines 206-217). -/
structure ItemRow where
  order_item_id : Nat
  order_id : Nat
  product_id : Int
  quantity : Int
  unit_price : ℚ
  line_total : ℚ
deriving DecidableEq

/-- The category table literal of `gen_products` (lines 133-139). -/
def categoriesTable : List (String × List String × List String) :=
  [("Electronics", ["Phones","Laptops","Headphones","Monitors","Cameras"],
      ["Acme","Zebra","Lux","Nova","Kite"]),
   ("Home", ["Kitchen","Bedding","Furniture","Decor"], ["Homely","Casa","Nido","Oak&Co"]),
   ("Outdoors", ["Camping","Cycling","Hiking","Fishing"], ["Trail","Peak","Rivera"]),
   ("Beauty", ["Skincare","Haircare","Fragrance"], ["Aura","Bloom","Velvet"]),
   ("Toys", ["Blocks","RC","Puzzles","Plush"], ["PlayCo","Kiddo","FunLab"])]

/-- Loop body of `gen_products` (lines 140-152): `pid` is the next
surrogate key, `n` the remaining row count. -/
def gen_products_go (today : Int) (pid n : Nat) (fk : Faker) (g : Rng) :
    List ProductRow × Faker × Rng :=
  match n with
  | 0 => ([], fk, g)
  | n + 1 =>
    let (c3, g1) := pychoice categoriesTable g
    let (sub, g2) := pychoice c3.2.1 g1
    let (brand, g3) := pychoice c3.2.2 g2
    let (base, g4) := pyuniform 5 900 g3
    let price := round2 base
    let (frac, g5) := pyuniform (1/2) (85/100) g4
    let cost := round2 (price * frac)
    let (created, fk1) := fk.dateBetween 1825 today
    let (ra, g6) := pyrandom g5
    let isActive : Nat := if (15/100 : ℚ) < ra then 1 else 0
    let row : ProductRow := ⟨pid, c3.1, sub, brand, price, cost, created, isActive⟩
    let R := gen_products_go today (pid + 1) n fk1 g6
    (row :: R.1, R.2.1, R.2.2)

/-- `gen_products(fake, n_products)` (lines 132-153). -/
def gen_products (today : Int) (fk : Faker) (g : Rng) (n : Nat) :
    List ProductRow × Faker × Rng :=
  gen_products_go today 1 n fk g

/-- The `sources` literal of `gen_customers` (line 156). -/
def sourcesList : List String :=
  ["seo","sem","email","social","direct","referral","marketplace"]

/-- The `countries` literal of `gen_customers` (line 157). -/
def custCountries : List String :=
  ["UA","PL","DE","FR","GB","US","CA","ES","IT","NL","SE","NO"]

/-- Loop body of `gen_customers` (lines 158-170). -/
def gen_customers_go (corp : NameCorpus) (today : Int) (cid n : Nat)
    (fk : Faker) (g : Rng) : List CustomerRow × Faker × Rng :=
  match n with
  | 0 => ([], fk, g)
  | n + 1 =>
    let (first, fk1) := fk.pick corp.firstNames
    let (last, fk2) := fk1.pick corp.lastNames
    let email := emailOf first last cid
    let (signup, fk3) := fk2.dateBetween 1095 today
    let (country, g1) := pychoice custCountries g
    let (city, fk4) := fk3.pick corp.cities
    let (rm, g2) := pyrandom g1
    let mkt : Nat := if rm < 35/100 then 1 else 0
    let (src, g3) := pychoice sourcesList g2
    let row : CustomerRow := ⟨cid, first, last, email, signup, country, city, mkt, src⟩
    let R := gen_customers_go corp today (cid + 1) n fk4 g3
    (row :: R.1, R.2.1, R.2.2)

/-- `gen_customers(fake, n_customers)` (lines 155-171). -/
def gen_customers (corp : NameCorpus) (today : Int) (fk : Faker) (g : Rng)
    (n : Nat) : List CustomerRow × Faker × Rng :=
  gen_customers_go corp today 1 n fk g

/-- The `statuses` literal of `gen_orders` (line 174). -/
def statusesList : List String :=
  ["paid","paid","paid","shipped","shipped","cancelled","refunded"]

/-- The `pay_methods` literal (line 175). -/
def payMethods : List String :=
  ["card","card","card","paypal","cod","applepay","googlepay"]

/-- The `currencies` literal (line 176). -/
def currenciesList : List String := ["USD","EUR","PLN","GBP"]

/-- The `countries` literal of `gen_orders` (line 177). -/
def ordCountries : List String :=
  ["UA","PL","DE","FR","GB","US","CA","ES","IT","NL","SE","NO"]

/-- `daterange(start_days_ago, end_days_ago)` (lines 81-85): the pair
`(utcnow - start_days_ago days, utcnow - end_days_ago days)` in epoch
seconds, with `utcnow` passed explicitly as `now`. -/
def daterange (now : Int) (startDaysAgo endDaysAgo : Nat) : Int × Int :=
  (now - startDaysAgo * 86400, now - endDaysAgo * 86400)

/-- `rand_datetime(start, end)` (lines 87-90): start plus a uniform
integer number of seconds up to the window width. -/
def rand_datetime (start finish : Int) (g : Rng) : Option (Int × Rng) :=
  match pyrandint 0 (finish - start) g with
  | none => none
  | some (s, g1) => some (start + s, g1)

/-- Loop body of `gen_orders` (lines 179-192); `none` models the
`ValueError` that `randint(1, n_customers)` raises for an empty range. -/
def gen_orders_go (now : Int) (n_customers : Nat) (oid n : Nat) (g : Rng) :
    Option (List OrderRow × Rng) :=
  match n with
  | 0 => some ([], g)
  | n + 1 =>
    match pyrandint 1 n_customers g with
    | none => none
    | some (cust, g1) =>
      match rand_datetime (daterange now 730 0).1 (daterange now 730 0).2 g1 with
      | none => none
      | some (dt, g2) =>
        let (status, g3) := pychoice statusesList g2
        let (curr, g4) := pychoice currenciesList g3
        let (pay, g5) := pychoice payMethods g4
        let (ship, g6) := pychoice ordCountries g5
        let (rd, g7) := pyrandom g6
        let dg :=
          if rd < 1/4 then
            let (z, gz) := pygauss 3 7 g7
            (round2 (max 0 z), gz)
          else ((0 : ℚ), g7)
        let (zt, g8) := pygauss 80 70 dg.2
        let total := round2 (abs zt + (if status = "shipped" ∨ status = "paid" then 5 else 0))
        let row : OrderRow := ⟨oid, cust, dt, status, curr, pay, ship, dg.1, total⟩
        match gen_orders_go now n_customers (oid + 1) n g8 with
        | none => none
        | some (rest, g9) => some (row :: rest, g9)

/-- `gen_orders(fake, n_orders, n_customers)` (lines 173-193). -/
def gen_orders (now : Int) (n_orders n_customers : Nat) (g : Rng) :
    Option (List OrderRow × Rng) :=
  gen_orders_go now n_customers 1 n_orders g

/-- `items_per_order()` (lines 197-204) as a function of the one
`random.random()` draw it makes. -/
def items_per_order (r : ℚ) : Nat :=
  if r < 40/100 then 1
  else if r < 70/100 then 2
  else if r < 88/100 then 3
  else if r < 95/100 then 4
  else if r < 985/1000 then 5
  else 6

/-- Inner loop of `gen_order_items` (lines 210-217): emit `k` item
rows for order `oid`, threading the next item id. -/
def gen_items_inner (n_products : Nat) (oid itemId k : Nat) (g : Rng) :
    Option (List ItemRow × Nat × Rng) :=
  match k with
  | 0 => some ([], itemId, g)
  | k + 1 =>
    match pyrandint 1 n_products g with
    | none => none
    | some (pid, g1) =>
      let (rq, g2) := pyrandom g1
      match (if rq < 7/10 then some ((1 : Int), g2) else pyrandint 2 5 g2) with
      | none => none
      | some (qty, g3) =>
        let (z, g4) := pygauss 60 50 g3
        let unit := round2 (max 1 z)
        let lineTotal := round2 (unit * (qty : ℚ))
        match gen_items_inner n_products oid (itemId + 1) k g4 with
        | none => none
        | some (rest, itemId1, g5) =>
          some (⟨itemId, oid, pid, qty, unit, lineTotal⟩ :: rest, itemId1, g5)

/-- Outer loop of `gen_order_items` (lines 206-217): iterate order ids,
drawing an item count for each. -/
def gen_order_items_go (n_products : Nat) (oid nLeft itemId : Nat) (g : Rng) :
    Option (List ItemRow × Nat × Rng) :=
  match nLeft with
  | 0 => some ([], itemId, g)
  | m + 1 =>
    let (r, g1) := pyrandom g
    match gen_items_inner n_products oid itemId (items_per_order r) g1 with
    | none => none
    | some (batch, itemId1, g2) =>
      match gen_order_items_go n_products (oid + 1) m itemId1 g2 with
      | none => none
      | some (rest, itemId2, g3) => some (batch ++ rest, itemId2, g3)

/-- `gen_order_items(n_orders, n_products, avg_items)` (lines
195-218); `avg_items` is accepted but never read, exactly as in the
source. -/
def gen_order_items (n_orders n_products : Nat) (avg_items : ℚ) (g : Rng) :
    Option (List ItemRow × Rng) :=
  match gen_order_items_go n_products 1 n_orders 1 g with
  | none => none
  | some (rows, _, g1) => some (rows, g1)

/-- Doubling of embedded quote characters, as `csv.writer` escapes
them inside a quoted field. -/
def escapeQuotes : List Char → List Char
  | [] => []
  | c :: cs => if c = '"' then '"' :: '"' :: escapeQuotes cs else c :: escapeQuotes cs

/-- `csv.writer`'s QUOTE_MINIMAL test: a field is enclosed in quotes
iff it contains the delimiter, the quote character, or a line break. -/
def needsQuote (s : String) : Bool :=
  s.data.any (fun c => c == ',' || c == '"' || c == '\n' || c == '\r')

/-- One serialized CSV field under QUOTE_MINIMAL. -/
def csvField (s : String) : String :=
  if needsQuote s then ⟨'"' :: (escapeQuotes s.data ++ ['"'])⟩ else s

/-- Comma-join of already-serialized fields. -/
def joinFields : List String → String
  | [] => ""
  | [f] => f
  | f :: fs => f ++ "," ++ joinFields fs

/-- One CSV record line (without the terminator). -/
def csvLine (fields : List String) : String := joinFields (fields.map csvField)

/-- Loop of `write_csv` (lines 98-102): serializes each row followed
by the CRLF terminator `csv.writer` uses, counts rows, and records the
cumulative counts at which a progress message is printed.  `written %
chunk` raises `ZeroDivisionError` when `chunk = 0` and a row exists. -/
def writeCsvGo (chunk : Nat) : Nat → List (List String) → Option (String × List Nat × Nat)
  | written, [] => some ("", [], written)
  | written, r :: rs =>
    if chunk = 0 then none
    else
      match writeCsvGo chunk (written + 1) rs with
      | none => none
      | some (tail, msgs, total) =>
        some (csvLine r ++ "\r\n" ++ tail,
          (if (written + 1) % chunk = 0 then (written + 1) :: msgs else msgs), total)

/-- `write_csv(path, header, row_iter, chunk)` (lines 92-104): returns
the file contents (header line first), the progress-report points, and
the row count that the function returns. -/
def write_csv (header : List String) (rows : List (List String)) (chunk : Nat) :
    Option (String × List Nat × Nat) :=
  match writeCsvGo chunk 0 rows with
  | none => none
  | some (body, msgs, total) => some (csvLine header ++ "\r\n" ++ body, msgs, total)

/-- Header of `products.csv` (line 250). -/
def productsHeader : List String :=
  ["product_id", "category", "subcategory", "brand", "price", "cost", "created_at", "is_active"]

/-- Header of `customers.csv` (line 261). -/
def customersHeader : List String :=
  ["customer_id","first_name","last_name","email","signup_date","country","city",
   "marketing_opt_in","acquisition_source"]

/-- Header of `orders.csv` (line 272). -/
def ordersHeader : List String :=
  ["order_id","customer_id","order_date","status","currency","payment_method",
   "shipping_country","discount","total_amount"]

/-- Header of `order_items.csv` (line 283). -/
def itemsHeader : List String :=
  ["order_item_id","order_id","product_id","quantity","unit_price","line_total"]

/-- The field strings `csv.writer` receives for one product row. -/
def productFields (p : ProductRow) : List String :=
  [natDecimal p.product_id, p.category, p.subcategory, p.brand,
   pyFloatRepr p.price, pyFloatRepr p.cost, isoDate p.created_at,
   natDecimal p.is_active]

/-- The field strings for one customer row. -/
def customerFields (c : CustomerRow) : List String :=
  [natDecimal c.customer_id, c.first_name, c.last_name, c.email,
   isoDate c.signup_date, c.country, c.city, natDecimal c.marketing_opt_in,
   c.acquisition_source]

/-- The field strings for one order row. -/
def orderFields (o : OrderRow) : List String :=
  [natDecimal o.order_id, intDecimal o.customer_id, fmtDateTime o.order_date,
   o.status, o.currency, o.payment_method, o.shipping_country,
   pyFloatRepr o.discount, pyFloatRepr o.total_amount]

/-- The field strings for one order-item row. -/
def itemFields (it : ItemRow) : List String :=
  [natDecimal it.order_item_id, natDecimal it.order_id, intDecimal it.product_id,
   intDecimal it.quantity, pyFloatRepr it.unit_price, pyFloatRepr it.line_total]

/-- The generation and serialization pipeline of `main` (lines
239-287): seed both PRNGs, then generate and write the four CSV files
in source order, threading both random states.  `now` is the wall
clock at the start of the run (epoch seconds); `none` models an
uncaught exception.  Database calls are external collaborators and are
not modelled. -/
def runPipeline (corp : NameCorpus) (s f : Nat → ℚ) (nC nP nO : Nat)
    (avgItems : ℚ) (now : Int) : Option (String × String × String × String) :=
  let today := now.ediv 86400
  let fk0 : Faker := ⟨f, 0⟩
  let g0 : Rng := ⟨s, 0⟩
  let P := gen_products today fk0 g0 nP
  match write_csv productsHeader (P.1.map productFields) 100000 with
  | none => none
  | some pOut =>
    let C := gen_customers corp today P.2.1 P.2.2 nC
    match write_csv customersHeader (C.1.map customerFields) 100000 with
    | none => none
    | some cOut =>
      match gen_orders now nO nC C.2.2 with
      | none => none
      | some Od =>
        match write_csv ordersHeader (Od.1.map orderFields) 100000 with
        | none => none
        | some oOut =>
          match gen_order_items nO nP avgItems Od.2 with
          | none => none
          | some It =>
            match write_csv itemsHeader (It.1.map itemFields) 100000 with
            | none => none
            | some iOut => some (pOut.1, cOut.1, oOut.1, iOut.1)

/-- Count of line-feed characters in a string. -/
def countNl (s : String) : Nat := s.data.count '\n'

/-- Non-header line count of a written CSV file (each record,
including the header, ends in CRLF). -/
def nonHeaderLines (s : String) : Nat := countNl s - 1

attribute [local semireducible] Rat.add Rat.mul Rat.sub Rat.inv Rat.ofScientific

theorem rnext_stream (g : Rng) : (rnext g).stream = g.stream := rfl

theorem pyrandint_none {a b : Int} (g : Rng) (h : b < a) : pyrandint a b g = none := by
  simp [pyrandint, h]

theorem pyrandint_isSome {a b : Int} (g : Rng) (h : a ≤ b) :
    pyrandint a b g = some (a + Int.floor (rval g * ((b : ℚ) - a + 1)), rnext g) := by
  simp [pyrandint, not_lt.mpr h]

theorem pyrandint_spec {a b v : Int} {g g1 : Rng}
    (hr0 : 0 ≤ rval g) (hr1 : rval g < 1)
    (h : pyrandint a b g = some (v, g1)) :
    a ≤ v ∧ v ≤ b ∧ g1 = rnext g := by
  unfold pyrandint at h
  by_cases hba : b < a
  · simp [hba] at h
  · simp only [if_neg hba] at h
    obtain ⟨hv, hg⟩ := Prod.mk.injEq .. ▸ Option.some.injEq _ _ ▸ h
    have hm : (1 : ℚ) ≤ (b : ℚ) - a + 1 := by
      have : (a : ℚ) ≤ b := by exact_mod_cast not_lt.mp hba
      linarith
    have h0 : (0 : ℤ) ≤ Int.floor (rval g * ((b : ℚ) - a + 1)) := by
      rw [Int.le_floor]
      push_cast
      exact mul_nonneg hr0 (by linarith)
    have h1 : Int.floor (rval g * ((b : ℚ) - a + 1)) < b - a + 1 := by
      rw [Int.floor_lt]
      push_cast
      have := mul_lt_mul_of_pos_right hr1 (show (0:ℚ) < (b : ℚ) - a + 1 by linarith)
      linarith
    refine ⟨?_, ?_, hg.symm⟩ <;> omega

theorem rhe_bounds (q : ℚ) : q - 1/2 ≤ (rhe q : ℚ) ∧ (rhe q : ℚ) ≤ q + 1/2 := by
  have h1 : ((⌊q⌋ : ℤ) : ℚ) ≤ q := Int.floor_le q
  have h2 : q < ⌊q⌋ + 1 := Int.lt_floor_add_one q
  simp only [rhe]
  split_ifs <;> constructor <;> push_cast <;> linarith

theorem round2_bounds (q : ℚ) : q - 1/200 ≤ round2 q ∧ round2 q ≤ q + 1/200 := by
  obtain ⟨h1, h2⟩ := rhe_bounds (q * 100)
  unfold round2
  constructor <;> linarith

theorem rhe_intCast (z : ℤ) : rhe (z : ℚ) = z := by
  simp [rhe]

theorem round2_exact {q : ℚ} (z : ℤ) (h : q * 100 = z) : round2 q = q := by
  unfold round2
  rw [h, rhe_intCast, ← h]
  ring

theorem round2_scaled_int (q : ℚ) : round2 q * 100 = ((rhe (q * 100) : ℤ) : ℚ) := by
  unfold round2
  ring

/-- C9: `gen_order_items` never reads its `avg_items` argument, so any
two values of the parameter give identical output. -/
theorem c9_avg_items_cosmetic :
    ∀ (n_orders n_products : Nat) (a1 a2 : ℚ) (g : Rng),
      gen_order_items n_orders n_products a1 g = gen_order_items n_orders n_products a2 g :=
  fun _ _ _ _ _ => rfl

/-- C7: the items-per-order sampler maps a draw `r` through cumulative
thresholds: it always lands in `{1,...,6}`, and for `r ∈ [0,1)` the
preimage of each count is the half-open interval whose width is the
claimed probability (40%, 30%, 18%, 7%, 3.5%, 1.5%). -/
theorem c7_items_per_order (r : ℚ) :
    (1 ≤ items_per_order r ∧ items_per_order r ≤ 6) ∧
    (0 ≤ r → r < 1 →
      ((items_per_order r = 1 ↔ 0 ≤ r ∧ r < 0 + 40/100) ∧
       (items_per_order r = 2 ↔ 40/100 ≤ r ∧ r < 40/100 + 30/100) ∧
       (items_per_order r = 3 ↔ 70/100 ≤ r ∧ r < 70/100 + 18/100) ∧
       (items_per_order r = 4 ↔ 88/100 ≤ r ∧ r < 88/100 + 7/100) ∧
       (items_per_order r = 5 ↔ 95/100 ≤ r ∧ r < 95/100 + 35/1000) ∧
       (items_per_order r = 6 ↔ 985/1000 ≤ r ∧ r < 985/1000 + 15/1000))) := by
  unfold items_per_order
  split_ifs with h1 h2 h3 h4 h5 <;>
    refine ⟨⟨by norm_num, by norm_num⟩, fun hr0 hr1 => ⟨?_, ?_, ?_, ?_, ?_, ?_⟩⟩ <;>
    constructor <;>
    first
      | (intro h; exfalso; omega)
      | (rintro ⟨ha, hb⟩; exfalso; linarith)
      | (rintro ⟨ha, hb⟩; rfl)
      | (intro h; refine ⟨by linarith, by linarith⟩)

theorem c7_witness : items_per_order (1/2) = 2 :=
  ((c7_items_per_order (1/2)).2 (by norm_num) (by norm_num)).2.1.mpr
    ⟨by norm_num, by norm_num⟩

/-- The all-zero draw stream, a legal `random.random()` trace. -/
def zeroStream : Nat → ℚ := fun _ => 0

theorem zeroStream_unit01 : Unit01 zeroStream := by
  intro i
  constructor <;> simp [zeroStream]

/-- A small concrete Faker corpus for witnesses. -/
def sampleCorpus : NameCorpus := ⟨["Ann"], ["Lee"], ["Kyiv"]⟩

theorem rval_bounds {g : Rng} (hU : Unit01 g.stream) : 0 ≤ rval g ∧ rval g < 1 :=
  hU g.k

/-- Core inequality behind C3, in the exact shape `gen_products`
produces: `price = round2(uniform(5,900))`,
`cost = round2(price * uniform(0.5, 0.85))`, both draws in `[0,1)`. -/
theorem cost_le_price_core {r1 r2 : ℚ}
    (h10 : 0 ≤ r1) (h11 : r1 < 1) (h20 : 0 ≤ r2) (h21 : r2 < 1) :
    round2 (round2 (5 + (900 - 5) * r1) * (1/2 + (85/100 - 1/2) * r2)) ≤
      round2 (5 + (900 - 5) * r1) := by
  set base := 5 + (900 - 5) * r1 with hbase
  obtain ⟨hb1, hb2⟩ := round2_bounds base
  have hbl : (5 : ℚ) ≤ base := by rw [hbase]; nlinarith
  set price := round2 base with hprice
  have hp5 : (499 : ℚ)/100 ≤ price := by linarith
  set u := 1/2 + (85/100 - 1/2) * r2 with hu
  have hu1 : (1/2 : ℚ) ≤ u := by rw [hu]; nlinarith
  have hu2 : u ≤ 85/100 := by rw [hu]; nlinarith
  obtain ⟨hc1, hc2⟩ := round2_bounds (price * u)
  have hmul : price * u ≤ price * (85/100) :=
    mul_le_mul_of_nonneg_left hu2 (by linarith)
  linarith

theorem gen_products_go_stream (today : Int) :
    ∀ (n pid : Nat) (fk : Faker) (g : Rng),
      (gen_products_go today pid n fk g).2.2.stream = g.stream := by
  intro n
  induction n with
  | zero => intro pid fk g; rfl
  | succ m ih =>
    intro pid fk g
    simp only [gen_products_go, pychoice, pyuniform, pyrandom, Faker.dateBetween]
    rw [ih]
    rfl

theorem gen_products_go_ids (today : Int) :
    ∀ (n pid : Nat) (fk : Faker) (g : Rng),
      (gen_products_go today pid n fk g).1.map ProductRow.product_id =
        List.range' pid n := by
  intro n
  induction n with
  | zero => intro pid fk g; rfl
  | succ m ih =>
    intro pid fk g
    simp only [gen_products_go, pychoice, pyuniform, pyrandom, Faker.dateBetween,
      List.map_cons, List.range'_succ]
    rw [ih]

theorem gen_products_go_len (today : Int) (n pid : Nat) (fk : Faker) (g : Rng) :
    (gen_products_go today pid n fk g).1.length = n := by
  have h := congrArg List.length (gen_products_go_ids today n pid fk g)
  simpa using h

theorem gen_products_go_cost (today : Int) :
    ∀ (n pid : Nat) (fk : Faker) (g : Rng), Unit01 g.stream →
      ∀ p ∈ (gen_products_go today pid n fk g).1, p.cost ≤ p.price := by
  intro n
  induction n with
  | zero => intro pid fk g hU p hp; simp [gen_products_go] at hp
  | succ m ih =>
    intro pid fk g hU p hp
    simp only [gen_products_go, pychoice, pyuniform, pyrandom, Faker.dateBetween,
      List.mem_cons] at hp
    rcases hp with hp | hp
    · subst hp
      exact cost_le_price_core
        (rval_bounds (g := rnext (rnext (rnext g))) hU).1
        (rval_bounds (g := rnext (rnext (rnext g))) hU).2
        (rval_bounds (g := rnext (rnext (rnext (rnext g)))) hU).1
        (rval_bounds (g := rnext (rnext (rnext (rnext g)))) hU).2
    · exact ih (pid + 1) fk.nx (rnext (rnext (rnext (rnext (rnext (rnext g)))))) hU p hp

/-- C3: every product row satisfies `cost ≤ price`, with
`price = round(uniform(5,900), 2)` and
`cost = round(price * uniform(0.5,0.85), 2)`, even after both
independent roundings. -/
theorem c3_cost_le_price (today : Int) (fk : Faker) (g : Rng) (n : Nat)
    (hU : Unit01 g.stream) (p : ProductRow)
    (hp : p ∈ (gen_products today fk g n).1) : p.cost ≤ p.price :=
  gen_products_go_cost today n 1 fk g hU p hp

theorem c3_witness : ((5 : ℚ)/2 ≤ 5) :=
  c3_cost_le_price 0 ⟨zeroStream, 0⟩ ⟨zeroStream, 0⟩ 1 zeroStream_unit01
    ⟨1, "Electronics", "Phones", "Acme", 5, 5/2, -1825, 0⟩ (by decide)

theorem gen_customers_go_ids (corp : NameCorpus) (today : Int) :
    ∀ (n cid : Nat) (fk : Faker) (g : Rng),
      (gen_customers_go corp today cid n fk g).1.map CustomerRow.customer_id =
        List.range' cid n := by
  intro n
  induction n with
  | zero => intro cid fk g; rfl
  | succ m ih =>
    intro cid fk g
    simp only [gen_customers_go, Faker.pick, Faker.dateBetween, pychoice, pyrandom,
      List.map_cons, List.range'_succ]
    rw [ih]

theorem gen_customers_go_len (corp : NameCorpus) (today : Int) (n cid : Nat)
    (fk : Faker) (g : Rng) :
    (gen_customers_go corp today cid n fk g).1.length = n := by
  have h := congrArg List.length (gen_customers_go_ids corp today n cid fk g)
  simpa using h

theorem gen_customers_go_email (corp : NameCorpus) (today : Int) :
    ∀ (n cid : Nat) (fk : Faker) (g : Rng),
      ∀ c ∈ (gen_customers_go corp today cid n fk g).1,
        c.email = emailOf c.first_name c.last_name c.customer_id := by
  intro n
  induction n with
  | zero => intro cid fk g c hc; simp [gen_customers_go] at hc
  | succ m ih =>
    intro cid fk g c hc
    simp only [gen_customers_go, Faker.pick, Faker.dateBetween, pychoice, pyrandom,
      List.mem_cons] at hc
    rcases hc with hc | hc
    · subst hc; rfl
    · exact ih (cid + 1) _ _ c hc

theorem decimalReprAux_fuel :
    ∀ (f1 f2 n : Nat), n < f1 → n < f2 →
      decimalReprAux f1 n = decimalReprAux f2 n := by
  intro f1
  induction f1 with
  | zero => intro f2 n h1 h2; omega
  | succ a ih =>
    intro f2 n h1 h2
    cases f2 with
    | zero => omega
    | succ b =>
      simp only [decimalReprAux]
      by_cases hn : n < 10
      · simp [hn]
      · simp only [if_neg hn]
        rw [ih b (n / 10) (by omega) (by omega)]

theorem decimalRepr_eq (n : Nat) :
    decimalRepr n =
      if n < 10 then [digitChar10 n]
      else decimalRepr (n / 10) ++ [digitChar10 (n % 10)] := by
  by_cases hn : n < 10
  · rw [if_pos hn]
    unfold decimalRepr
    simp [decimalReprAux, hn]
  · rw [if_neg hn]
    unfold decimalRepr
    rw [show decimalReprAux (n + 1) n =
          decimalReprAux n (n / 10) ++ [digitChar10 (n % 10)] from by
        simp [decimalReprAux, hn]]
    rw [decimalReprAux_fuel n (n / 10 + 1) (n / 10) (by omega) (by omega)]

theorem decimalRepr_ne_nil (n : Nat) : decimalRepr n ≠ [] := by
  rw [decimalRepr_eq]
  by_cases hn : n < 10 <;> simp [hn]

theorem decimalRepr_digits :
    ∀ n : Nat, ∀ c ∈ decimalRepr n, ∃ d, d < 10 ∧ c = digitChar10 d := by
  intro n
  induction n using Nat.strong_induction_on with
  | _ n ih =>
    rw [decimalRepr_eq]
    by_cases hn : n < 10
    · simp only [if_pos hn, List.mem_singleton]
      intro c hc
      exact ⟨n, hn, hc⟩
    · simp only [if_neg hn, List.mem_append, List.mem_singleton]
      rintro c (hc | hc)
      · exact ih (n / 10) (by omega) c hc
      · exact ⟨n % 10, by omega, hc⟩

theorem digitChar10_inj {m n : Nat} (hm : m < 10) (hn : n < 10)
    (h : digitChar10 m = digitChar10 n) : m = n := by
  interval_cases m <;> interval_cases n <;> revert h <;> decide

theorem decimalRepr_inj : ∀ m n : Nat, decimalRepr m = decimalRepr n → m = n := by
  intro m
  induction m using Nat.strong_induction_on with
  | _ m ih =>
    intro n h
    rw [decimalRepr_eq m, decimalRepr_eq n] at h
    by_cases hm : m < 10 <;> by_cases hn : n < 10
    · simp only [if_pos hm, if_pos hn, List.cons.injEq] at h
      exact digitChar10_inj hm hn h.1
    · exfalso
      simp only [if_pos hm, if_neg hn] at h
      have hl := congrArg List.length h
      have hp : 0 < (decimalRepr (n / 10)).length :=
        List.length_pos.mpr (decimalRepr_ne_nil _)
      simp only [List.length_append, List.length_cons, List.length_nil] at hl
      omega
    · exfalso
      simp only [if_neg hm, if_pos hn] at h
      have hl := congrArg List.length h
      have hp : 0 < (decimalRepr (m / 10)).length :=
        List.length_pos.mpr (decimalRepr_ne_nil _)
      simp only [List.length_append, List.length_cons, List.length_nil] at hl
      omega
    · simp only [if_neg hm, if_neg hn] at h
      obtain ⟨h1, h2⟩ := List.append_inj' h rfl
      have hmod : m % 10 = n % 10 :=
        digitChar10_inj (by omega) (by omega) (by simpa using h2)
      have hdiv : m / 10 = n / 10 := ih (m / 10) (by omega) (n / 10) h1
      omega

theorem lowerChar_digitChar10 {d : Nat} (hd : d < 10) :
    lowerChar (digitChar10 d) = digitChar10 d := by
  interval_cases d <;> decide

theorem digitChar10_ne_dot {d : Nat} (hd : d < 10) : digitChar10 d ≠ '.' := by
  interval_cases d <;> decide

theorem map_id_on {α : Type} (f : α → α) :
    ∀ l : List α, (∀ c ∈ l, f c = c) → l.map f = l := by
  intro l
  induction l with
  | nil => intro h; rfl
  | cons a t ih =>
    intro h
    simp only [List.map_cons, h a (by simp)]
    rw [ih fun c hc => h c (by simp [hc])]

theorem map_lowerChar_decimalRepr (n : Nat) :
    (decimalRepr n).map lowerChar = decimalRepr n := by
  apply map_id_on
  intro c hc
  obtain ⟨d, hd, rfl⟩ := decimalRepr_digits n c hc
  exact lowerChar_digitChar10 hd

theorem takeWhile_append_of_all {α : Type} (p : α → Bool) :
    ∀ (xs : List α) (y : α) (ys : List α),
      (∀ x ∈ xs, p x = true) → p y = false →
      List.takeWhile p (xs ++ y :: ys) = xs := by
  intro xs
  induction xs with
  | nil =>
    intro y ys h hy
    simp [List.takeWhile_cons, hy]
  | cons a t ih =>
    intro y ys h hy
    rw [List.cons_append, List.takeWhile_cons, if_pos (h a (by simp))]
    rw [ih y ys (fun x hx => h x (by simp [hx])) hy]

theorem decimalRepr_reverse_nodot (c : Nat) :
    ∀ x ∈ (decimalRepr c).reverse, (x != '.') = true := by
  intro x hx
  rw [List.mem_reverse] at hx
  obtain ⟨d, hd, rfl⟩ := decimalRepr_digits c x hx
  simpa [bne_iff_ne] using digitChar10_ne_dot hd

/-- The generated email determines the embedded customer id: the id is
the digit run between the last dot and the domain, and lower-casing
fixes digits. -/
theorem emailChars_inj {f1 l1 f2 l2 : List Char} {c1 c2 : Nat}
    (h : emailChars f1 l1 c1 = emailChars f2 l2 c2) : c1 = c2 := by
  unfold emailChars at h
  simp only [List.map_append, List.map_cons] at h
  rw [map_lowerChar_decimalRepr c1, map_lowerChar_decimalRepr c2] at h
  simp only [List.map_nil,
    show lowerChar '.' = '.' from by decide, show lowerChar '@' = '@' from by decide,
    show lowerChar 'e' = 'e' from by decide, show lowerChar 'x' = 'x' from by decide,
    show lowerChar 'a' = 'a' from by decide, show lowerChar 'm' = 'm' from by decide,
    show lowerChar 'p' = 'p' from by decide, show lowerChar 'l' = 'l' from by decide,
    show lowerChar 'c' = 'c' from by decide, show lowerChar 'o' = 'o' from by decide] at h
  have hrev := congrArg List.reverse h
  simp only [List.reverse_append, List.reverse_cons, List.reverse_nil,
    List.append_assoc, List.singleton_append, List.nil_append, List.cons_append,
    List.cons.injEq, true_and] at hrev
  have hcan := hrev
  have htw := congrArg (List.takeWhile (fun c => c != '.')) hcan
  rw [takeWhile_append_of_all _ _ _ _ (decimalRepr_reverse_nodot c1) (by decide),
      takeWhile_append_of_all _ _ _ _ (decimalRepr_reverse_nodot c2) (by decide)] at htw
  exact decimalRepr_inj c1 c2 (List.reverse_injective htw)

theorem emailOf_inj {a b u v : String} {c1 c2 : Nat}
    (h : emailOf a u c1 = emailOf b v c2) : c1 = c2 :=
  emailChars_inj (congrArg String.data h)

/-- C10: the customer producer emits exactly `n` rows and their email
fields are pairwise distinct, because each email embeds the row's
sequential surrogate key between the last dot and the domain. -/
theorem c10_email_uniqueness (corp : NameCorpus) (today : Int) (fk : Faker)
    (g : Rng) (n : Nat) :
    (gen_customers corp today fk g n).1.length = n ∧
    (gen_customers corp today fk g n).1.Pairwise (fun a b => a.email ≠ b.email) := by
  refine ⟨gen_customers_go_len corp today n 1 fk g, ?_⟩
  have hnodup : ((gen_customers corp today fk g n).1.map CustomerRow.customer_id).Nodup := by
    rw [show (gen_customers corp today fk g n).1 =
          (gen_customers_go corp today 1 n fk g).1 from rfl,
        gen_customers_go_ids corp today n 1 fk g]
    exact List.nodup_range' 1 n
  have hpair : (gen_customers corp today fk g n).1.Pairwise
      (fun a b => a.customer_id ≠ b.customer_id) := List.pairwise_map.mp hnodup
  refine List.Pairwise.imp_of_mem ?_ hpair
  intro a b ha hb hne heq
  apply hne
  have hea := gen_customers_go_email corp today n 1 fk g a ha
  have heb := gen_customers_go_email corp today n 1 fk g b hb
  exact emailOf_inj (a := a.first_name) (by rw [← hea, ← heb, heq])

theorem gen_orders_go_ids (now : Int) (nc : Nat) :
    ∀ (n oid : Nat) (g : Rng) (rows : List OrderRow) (g2 : Rng),
      gen_orders_go now nc oid n g = some (rows, g2) →
      rows.map OrderRow.order_id = List.range' oid rows.length := by
  intro n
  induction n with
  | zero =>
    intro oid g rows g2 h
    simp only [gen_orders_go, Option.some.injEq, Prod.mk.injEq] at h
    rw [← h.1]
    rfl
  | succ m ih =>
    intro oid g rows g2 h
    simp only [gen_orders_go, pychoice, pyrandom, pygauss] at h
    split at h
    · exact absurd h (by simp)
    · split at h
      · exact absurd h (by simp)
      · split at h
        · exact absurd h (by simp)
        · rename_i rest g9 heq
          simp only [Option.some.injEq, Prod.mk.injEq] at h
          obtain ⟨hrows, hg⟩ := h
          subst hrows
          simp only [List.map_cons, List.length_cons, List.range'_succ,
            List.cons.injEq]
          exact ⟨trivial, ih (oid + 1) _ rest g9 heq⟩

theorem gen_items_inner_ids (np : Nat) :
    ∀ (k oid itemId : Nat) (g : Rng) (rows : List ItemRow) (id2 : Nat) (g2 : Rng),
      gen_items_inner np oid itemId k g = some (rows, id2, g2) →
      rows.map ItemRow.order_item_id = List.range' itemId rows.length ∧
      id2 = itemId + rows.length := by
  intro k
  induction k with
  | zero =>
    intro oid itemId g rows id2 g2 h
    simp only [gen_items_inner, Option.some.injEq, Prod.mk.injEq] at h
    obtain ⟨h1, h2, h3⟩ := h
    subst h1
    simp only [List.length_nil]
    exact ⟨rfl, by omega⟩
  | succ kk ih =>
    intro oid itemId g rows id2 g2 h
    simp only [gen_items_inner, pyrandom, pygauss] at h
    split at h
    · exact absurd h (by simp)
    · split at h
      · exact absurd h (by simp)
      · split at h
        · exact absurd h (by simp)
        · rename_i rest id3 g5 heq
          simp only [Option.some.injEq, Prod.mk.injEq] at h
          obtain ⟨hrows, hid, hg⟩ := h
          subst hrows
          obtain ⟨hids, hlen⟩ := ih oid (itemId + 1) _ rest id3 g5 heq
          constructor
          · simp only [List.map_cons, List.length_cons, List.range'_succ,
              List.cons.injEq]
            exact ⟨trivial, hids⟩
          · simp only [List.length_cons]
            omega

theorem gen_order_items_go_ids (np : Nat) :
    ∀ (nLeft oid itemId : Nat) (g : Rng) (rows : List ItemRow) (id2 : Nat) (g2 : Rng),
      gen_order_items_go np oid nLeft itemId g = some (rows, id2, g2) →
      rows.map ItemRow.order_item_id = List.range' itemId rows.length ∧
      id2 = itemId + rows.length := by
  intro nLeft
  induction nLeft with
  | zero =>
    intro oid itemId g rows id2 g2 h
    simp only [gen_order_items_go, Option.some.injEq, Prod.mk.injEq] at h
    obtain ⟨h1, h2, h3⟩ := h
    subst h1
    simp only [List.length_nil]
    exact ⟨rfl, by omega⟩
  | succ m ih =>
    intro oid itemId g rows id2 g2 h
    simp only [gen_order_items_go, pyrandom] at h
    split at h
    · exact absurd h (by simp)
    · next batch id1 g3 heq1 =>
      split at h
      · exact absurd h (by simp)
      · next rest id4 g5 heq2 =>
        simp only [Option.some.injEq, Prod.mk.injEq] at h
        obtain ⟨hrows, hid, hg⟩ := h
        subst hrows
        obtain ⟨hb_ids, hb_id⟩ := gen_items_inner_ids np _ oid itemId _ batch id1 g3 heq1
        obtain ⟨hr_ids, hr_id⟩ := ih (oid + 1) id1 g3 rest id4 g5 heq2
        rw [hb_id] at hr_ids
        constructor
        · rw [List.map_append, hb_ids, hr_ids, List.length_append]
          have hap := List.range'_append itemId batch.length rest.length 1
          simp only [one_mul] at hap
          rw [hap, Nat.add_comm]
        · rw [List.length_append]
          omega

/-- C5: for every requested count, every producer's emitted rows carry
surrogate keys that are exactly the contiguous 1-based range
`[1, rows emitted]`, in increasing order, with no gaps or duplicates
(`List.range' 1 len` is that range). -/
theorem c5_surrogate_keys :
    (∀ (today : Int) (fk : Faker) (g : Rng) (n : Nat),
        (gen_products today fk g n).1.map ProductRow.product_id =
          List.range' 1 (gen_products today fk g n).1.length) ∧
    (∀ (corp : NameCorpus) (today : Int) (fk : Faker) (g : Rng) (n : Nat),
        (gen_customers corp today fk g n).1.map CustomerRow.customer_id =
          List.range' 1 (gen_customers corp today fk g n).1.length) ∧
    (∀ (now : Int) (nO nC : Nat) (g : Rng) (rows : List OrderRow) (g2 : Rng),
        gen_orders now nO nC g = some (rows, g2) →
        rows.map OrderRow.order_id = List.range' 1 rows.length) ∧
    (∀ (nO nP : Nat) (a : ℚ) (g : Rng) (rows : List ItemRow) (g2 : Rng),
        gen_order_items nO nP a g = some (rows, g2) →
        rows.map ItemRow.order_item_id = List.range' 1 rows.length) := by
  refine ⟨?_, ?_, ?_, ?_⟩
  · intro today fk g n
    have hl := gen_products_go_len today n 1 fk g
    show (gen_products_go today 1 n fk g).1.map ProductRow.product_id =
      List.range' 1 (gen_products_go today 1 n fk g).1.length
    rw [hl]
    exact gen_products_go_ids today n 1 fk g
  · intro corp today fk g n
    have hl := gen_customers_go_len corp today n 1 fk g
    show (gen_customers_go corp today 1 n fk g).1.map CustomerRow.customer_id =
      List.range' 1 (gen_customers_go corp today 1 n fk g).1.length
    rw [hl]
    exact gen_customers_go_ids corp today n 1 fk g
  · intro now nO nC g rows g2 h
    exact gen_orders_go_ids now nC nO 1 g rows g2 h
  · intro nO nP a g rows g2 h
    simp only [gen_order_items] at h
    split at h
    · exact absurd h (by simp)
    · next rows0 idX gX heq =>
      simp only [Option.some.injEq, Prod.mk.injEq] at h
      obtain ⟨h1, h2⟩ := h
      subst h1
      exact (gen_order_items_go_ids nP nO 1 1 g rows0 idX gX heq).1

theorem c5_witness :
    ([(⟨1, 1, 1636928000, "paid", "USD", "card", "UA", 0, 15⟩ : OrderRow)].map
        OrderRow.order_id = List.range' 1 1) ∧
    ([(⟨1, 1, 1, 1, 10, 10⟩ : ItemRow)].map
        ItemRow.order_item_id = List.range' 1 1) :=
  ⟨c5_surrogate_keys.2.2.1 1700000000 1 1 ⟨zeroStream, 0⟩ _ ⟨zeroStream, 9⟩ (by rfl),
   c5_surrogate_keys.2.2.2 1 1 3 ⟨zeroStream, 0⟩ _ ⟨zeroStream, 4⟩ (by rfl)⟩

theorem items_per_order_bounds (r : ℚ) :
    1 ≤ items_per_order r ∧ items_per_order r ≤ 6 := by
  unfold items_per_order
  split_ifs <;> norm_num

theorem line_total_exact (x : ℚ) (q : ℤ) :
    round2 (round2 x * (q : ℚ)) = round2 x * (q : ℚ) := by
  apply round2_exact (rhe (x * 100) * q)
  unfold round2
  push_cast
  ring

theorem gen_items_inner_isSome (np : Nat) (hnp : 1 ≤ np) :
    ∀ (k oid itemId : Nat) (g : Rng),
      ∃ t, gen_items_inner np oid itemId k g = some t := by
  intro k
  induction k with
  | zero => intro oid itemId g; exact ⟨_, rfl⟩
  | succ kk ih =>
    intro oid itemId g
    have hnpz : ¬((np : Int) < 1) := not_lt.mpr (by exact_mod_cast hnp)
    by_cases hq : rval (rnext g) < 7/10
    · simp only [gen_items_inner, pyrandint, pyrandom, pygauss, if_neg hnpz, if_pos hq]
      obtain ⟨t, ht⟩ := ih oid (itemId + 1) (rnext (rnext (rnext g)))
      rw [ht]
      exact ⟨_, rfl⟩
    · simp only [gen_items_inner, pyrandint, pyrandom, pygauss, if_neg hnpz, if_neg hq,
        if_neg (by decide : ¬((5 : Int) < 2))]
      obtain ⟨t, ht⟩ := ih oid (itemId + 1) (rnext (rnext (rnext (rnext g))))
      rw [ht]
      exact ⟨_, rfl⟩

theorem gen_items_inner_facts (np : Nat) :
    ∀ (k oid itemId : Nat) (g : Rng) (rows : List ItemRow) (id2 : Nat) (g2 : Rng),
      Unit01 g.stream →
      gen_items_inner np oid itemId k g = some (rows, id2, g2) →
      g2.stream = g.stream ∧ rows.length = k ∧
      ∀ it ∈ rows, it.order_id = oid ∧
        1 ≤ it.product_id ∧ it.product_id ≤ (np : Int) ∧
        1 ≤ it.quantity ∧ it.quantity ≤ 5 ∧
        it.line_total = it.unit_price * (it.quantity : ℚ) := by
  intro k
  induction k with
  | zero =>
    intro oid itemId g rows id2 g2 hU h
    simp only [gen_items_inner, Option.some.injEq, Prod.mk.injEq] at h
    obtain ⟨h1, h2, h3⟩ := h
    subst h1 h3
    exact ⟨rfl, rfl, by simp⟩
  | succ kk ih =>
    intro oid itemId g rows id2 g2 hU h
    simp only [gen_items_inner, pyrandom, pygauss] at h
    split at h
    · exact absurd h (by simp)
    · next pid g1 heq1 =>
      split at h
      · exact absurd h (by simp)
      · next qty g3 heq2 =>
        split at h
        · exact absurd h (by simp)
        · next rest itemId1 g5 heq3 =>
          obtain ⟨hp1, hp2, hp3⟩ := pyrandint_spec (rval_bounds hU).1 (rval_bounds hU).2 heq1
          subst hp3
          have hq : (1 ≤ qty ∧ qty ≤ 5) ∧ g3.stream = g.stream := by
            by_cases hc : rval (rnext g) < 7/10
            · rw [if_pos hc] at heq2
              simp only [Option.some.injEq, Prod.mk.injEq] at heq2
              obtain ⟨hq1, hq2⟩ := heq2
              subst hq1 hq2
              exact ⟨⟨le_refl 1, by norm_num⟩, rfl⟩
            · rw [if_neg hc] at heq2
              obtain ⟨ha, hb, hcg⟩ :=
                pyrandint_spec (g := rnext (rnext g))
                  (rval_bounds (g := rnext (rnext g)) hU).1
                  (rval_bounds (g := rnext (rnext g)) hU).2 heq2
              subst hcg
              exact ⟨⟨by omega, hb⟩, rfl⟩
          obtain ⟨hrec_stream, hrec_len, hrec_facts⟩ :=
            ih oid (itemId + 1) (rnext g3) rest itemId1 g5
              (by rw [rnext_stream, hq.2]; exact hU) heq3
          simp only [Option.some.injEq, Prod.mk.injEq] at h
          obtain ⟨hrows, hid, hg⟩ := h
          subst hrows hg
          refine ⟨by rw [hrec_stream, rnext_stream, hq.2], by simp [hrec_len], ?_⟩
          intro it hit
          rcases List.mem_cons.mp hit with hh | hh
          · subst hh
            exact ⟨rfl, hp1, hp2, hq.1.1, hq.1.2, line_total_exact _ _⟩
          · exact hrec_facts it hh

theorem gen_order_items_go_isSome (np : Nat) (hnp : 1 ≤ np) :
    ∀ (nLeft oid itemId : Nat) (g : Rng),
      ∃ t, gen_order_items_go np oid nLeft itemId g = some t := by
  intro nLeft
  induction nLeft with
  | zero => intro oid itemId g; exact ⟨_, rfl⟩
  | succ m ih =>
    intro oid itemId g
    obtain ⟨⟨batch, id1, g3⟩, hb⟩ :=
      gen_items_inner_isSome np hnp (items_per_order (rval g)) oid itemId (rnext g)
    obtain ⟨⟨rest, id4, g5⟩, hr⟩ := ih (oid + 1) id1 g3
    simp only [gen_order_items_go, pyrandom, hb, hr]
    exact ⟨_, rfl⟩

theorem gen_order_items_go_facts (np : Nat) :
    ∀ (nLeft oid itemId : Nat) (g : Rng) (rows : List ItemRow) (id2 : Nat) (g2 : Rng),
      Unit01 g.stream →
      gen_order_items_go np oid nLeft itemId g = some (rows, id2, g2) →
      g2.stream = g.stream ∧
      nLeft ≤ rows.length ∧ rows.length ≤ 6 * nLeft ∧
      (∀ it ∈ rows, oid ≤ it.order_id ∧ it.order_id < oid + nLeft ∧
        1 ≤ it.product_id ∧ it.product_id ≤ (np : Int) ∧
        1 ≤ it.quantity ∧ it.quantity ≤ 5 ∧
        it.line_total = it.unit_price * (it.quantity : ℚ)) ∧
      (∀ o, oid ≤ o → o < oid + nLeft → ∃ it ∈ rows, it.order_id = o) := by
  intro nLeft
  induction nLeft with
  | zero =>
    intro oid itemId g rows id2 g2 hU h
    simp only [gen_order_items_go, Option.some.injEq, Prod.mk.injEq] at h
    obtain ⟨h1, h2, h3⟩ := h
    subst h1 h3
    refine ⟨rfl, by simp, by simp, by simp, ?_⟩
    intro o ho1 ho2
    omega
  | succ m ih =>
    intro oid itemId g rows id2 g2 hU h
    simp only [gen_order_items_go, pyrandom] at h
    split at h
    · exact absurd h (by simp)
    · next batch id1 g3 heq1 =>
      split at h
      · exact absurd h (by simp)
      · next rest id4 g5 heq2 =>
        simp only [Option.some.injEq, Prod.mk.injEq] at h
        obtain ⟨hrows, hid, hg⟩ := h
        subst hrows hg
        obtain ⟨hbs, hbl, hbf⟩ :=
          gen_items_inner_facts np (items_per_order (rval g)) oid itemId
            (rnext g) batch id1 g3 hU heq1
        have hU3 : Unit01 g3.stream := by rw [hbs]; exact hU
        obtain ⟨hrs, hrl1, hrl2, hrf, hrc⟩ := ih (oid + 1) id1 g3 rest id4 g5 hU3 heq2
        have hk := items_per_order_bounds (rval g)
        refine ⟨by rw [hrs, hbs]; rfl, ?_, ?_, ?_, ?_⟩
        · rw [List.length_append]; omega
        · rw [List.length_append]; omega
        · intro it hit
          rcases List.mem_append.mp hit with hh | hh
          · obtain ⟨ho, hx1, hx2, hx3, hx4, hx5⟩ := hbf it hh
            exact ⟨by omega, by omega, hx1, hx2, hx3, hx4, hx5⟩
          · obtain ⟨ha1, ha2, hx1, hx2, hx3, hx4, hx5⟩ := hrf it hh
            exact ⟨by omega, by omega, hx1, hx2, hx3, hx4, hx5⟩
        · intro o ho1 ho2
          by_cases hoo : o = oid
          · subst hoo
            have hbne : batch ≠ [] := by
              intro hb0
              rw [hb0] at hbl
              simp at hbl
              omega
            obtain ⟨it, hit⟩ := List.exists_mem_of_ne_nil batch hbne
            exact ⟨it, List.mem_append_left _ hit, (hbf it hit).1⟩
          · obtain ⟨it, hit, ho⟩ := hrc o (by omega) (by omega)
            exact ⟨it, List.mem_append_right _ hit, ho⟩

/-- C4: every emitted order-item row has `line_total` equal to
`unit_price * quantity` to within `0.01` (here: exactly, since
`unit_price` is already rounded to 2 decimals), and an integer
quantity in `[1, 5]`. -/
theorem c4_line_total (nO nP : Nat) (a : ℚ) (g : Rng) (rows : List ItemRow)
    (g2 : Rng) (hU : Unit01 g.stream)
    (h : gen_order_items nO nP a g = some (rows, g2)) :
    ∀ it ∈ rows,
      |it.line_total - it.unit_price * (it.quantity : ℚ)| ≤ 1/100 ∧
      1 ≤ it.quantity ∧ it.quantity ≤ 5 := by
  simp only [gen_order_items] at h
  split at h
  · exact absurd h (by simp)
  · next rows0 idX gX heq =>
    simp only [Option.some.injEq, Prod.mk.injEq] at h
    obtain ⟨h1, h2⟩ := h
    subst h1
    obtain ⟨hs, hl1, hl2, hf, hc⟩ :=
      gen_order_items_go_facts nP nO 1 1 g rows0 idX gX hU heq
    intro it hit
    obtain ⟨ho1, ho2, hx1, hx2, hx3, hx4, hx5⟩ := hf it hit
    refine ⟨?_, hx3, hx4⟩
    rw [hx5, sub_self, abs_zero]
    norm_num

theorem c4_witness :
    |((⟨1, 1, 1, 1, 10, 10⟩ : ItemRow)).line_total -
        ((⟨1, 1, 1, 1, 10, 10⟩ : ItemRow)).unit_price *
          (((⟨1, 1, 1, 1, 10, 10⟩ : ItemRow)).quantity : ℚ)| ≤ 1/100 ∧
    1 ≤ ((⟨1, 1, 1, 1, 10, 10⟩ : ItemRow)).quantity ∧
    ((⟨1, 1, 1, 1, 10, 10⟩ : ItemRow)).quantity ≤ 5 :=
  c4_line_total 1 1 3 ⟨zeroStream, 0⟩ _ ⟨zeroStream, 4⟩ zeroStream_unit01 (by rfl)
    ⟨1, 1, 1, 1, 10, 10⟩ (by decide)

/-- C6: with at least one order and one product, the order-items
producer succeeds, covers every order id in `[1, n_orders]` at least
once, emits between `n_orders` and `6 * n_orders` rows, and draws
every `product_id` from `[1, n_products]`. -/
theorem c6_order_items_coverage (nO nP : Nat) (a : ℚ) (g : Rng)
    (hU : Unit01 g.stream) (h1 : 1 ≤ nO) (h2 : 1 ≤ nP) :
    ∃ (rows : List ItemRow) (g2 : Rng),
      gen_order_items nO nP a g = some (rows, g2) ∧
      (∀ oid, 1 ≤ oid → oid ≤ nO → ∃ it ∈ rows, it.order_id = oid) ∧
      nO ≤ rows.length ∧ rows.length ≤ 6 * nO ∧
      ∀ it ∈ rows, 1 ≤ it.product_id ∧ it.product_id ≤ (nP : Int) := by
  obtain ⟨⟨rows0, idX, gX⟩, heq⟩ := gen_order_items_go_isSome nP h2 nO 1 1 g
  obtain ⟨hs, hl1, hl2, hf, hc⟩ :=
    gen_order_items_go_facts nP nO 1 1 g rows0 idX gX hU heq
  refine ⟨rows0, gX, ?_, ?_, hl1, hl2, ?_⟩
  · simp only [gen_order_items, heq]
  · intro oid ho1 ho2
    exact hc oid ho1 (by omega)
  · intro it hit
    obtain ⟨hy1, hy2, hx1, hx2, hy3, hy4, hy5⟩ := hf it hit
    exact ⟨hx1, hx2⟩

theorem c6_witness :
    ∃ (rows : List ItemRow) (g2 : Rng),
      gen_order_items 2 2 3 ⟨zeroStream, 0⟩ = some (rows, g2) ∧
      (∀ oid, 1 ≤ oid → oid ≤ 2 → ∃ it ∈ rows, it.order_id = oid) ∧
      2 ≤ rows.length ∧ rows.length ≤ 6 * 2 ∧
      ∀ it ∈ rows, 1 ≤ it.product_id ∧ it.product_id ≤ ((2 : Nat) : Int) :=
  c6_order_items_coverage 2 2 3 ⟨zeroStream, 0⟩ zeroStream_unit01
    (by norm_num) (by norm_num)

/-- The file body `write_csv`'s loop produces: each record serialized
and terminated by CRLF, in order. -/
def csvBody : List (List String) → String
  | [] => ""
  | r :: rs => csvLine r ++ "\r\n" ++ csvBody rs

theorem mem_escapeQuotes : ∀ (l : List Char) (c : Char),
    c ∈ escapeQuotes l → c ∈ l ∨ c = '"' := by
  intro l
  induction l with
  | nil => intro c hc; simp [escapeQuotes] at hc
  | cons a t ih =>
    intro c hc
    simp only [escapeQuotes] at hc
    by_cases ha : a = '"'
    · rw [if_pos ha] at hc
      simp only [List.mem_cons] at hc
      rcases hc with rfl | rfl | hc
      · exact Or.inr rfl
      · exact Or.inr rfl
      · rcases ih c hc with hm | hq
        · exact Or.inl (List.mem_cons_of_mem a hm)
        · exact Or.inr hq
    · rw [if_neg ha] at hc
      simp only [List.mem_cons] at hc
      rcases hc with rfl | hc
      · exact Or.inl (List.mem_cons_self c t)
      · rcases ih c hc with hm | hq
        · exact Or.inl (List.mem_cons_of_mem a hm)
        · exact Or.inr hq

theorem csvField_no_nl {s : String} (h : '\n' ∉ s.data) :
    '\n' ∉ (csvField s).data := by
  unfold csvField
  by_cases hq : needsQuote s
  · rw [if_pos hq]
    show '\n' ∉ '"' :: (escapeQuotes s.data ++ ['"'])
    intro hmem
    simp only [List.mem_cons, List.mem_append, List.mem_singleton] at hmem
    rcases hmem with h1 | h2 | h3
    · exact absurd h1 (by decide)
    · rcases mem_escapeQuotes s.data '\n' h2 with hm2 | hm2
      · exact h hm2
      · exact absurd hm2 (by decide)
    · exact absurd h3 (by decide)
  · rw [if_neg hq]
    exact h

theorem joinFields_no_nl : ∀ (l : List String),
    (∀ f ∈ l, '\n' ∉ f.data) → '\n' ∉ (joinFields l).data := by
  intro l
  induction l with
  | nil => intro h; simp [joinFields]
  | cons f fs ih =>
    intro h
    cases fs with
    | nil =>
      simpa [joinFields] using h f (by simp)
    | cons f2 t =>
      show '\n' ∉ (f ++ "," ++ joinFields (f2 :: t)).data
      rw [String.data_append, String.data_append]
      intro hm
      rcases List.mem_append.mp hm with hm1 | hm1
      · rcases List.mem_append.mp hm1 with hm2 | hm2
        · exact h f (by simp) hm2
        · simp at hm2
      · exact ih (fun x hx => h x (by simp [hx])) hm1

theorem csvLine_no_nl {fields : List String}
    (h : ∀ f ∈ fields, '\n' ∉ f.data) : '\n' ∉ (csvLine fields).data := by
  unfold csvLine
  apply joinFields_no_nl
  intro f hf
  obtain ⟨f0, hf0, rfl⟩ := List.mem_map.mp hf
  exact csvField_no_nl (h f0 hf0)

theorem countNl_append (a b : String) : countNl (a ++ b) = countNl a + countNl b := by
  unfold countNl
  rw [String.data_append, List.count_append]

theorem countNl_of_no_nl {s : String} (h : '\n' ∉ s.data) : countNl s = 0 :=
  List.count_eq_zero.mpr h

theorem countNl_csvBody : ∀ (rows : List (List String)),
    (∀ r ∈ rows, ∀ f ∈ r, '\n' ∉ f.data) → countNl (csvBody rows) = rows.length := by
  intro rows
  induction rows with
  | nil => intro h; rfl
  | cons r rs ih =>
    intro h
    show countNl (csvLine r ++ "\r\n" ++ csvBody rs) = rs.length + 1
    rw [countNl_append, countNl_append,
      countNl_of_no_nl (csvLine_no_nl (h r (by simp))),
      show countNl "\r\n" = 1 from by decide,
      ih (fun x hx => h x (by simp [hx]))]
    omega

theorem writeCsvGo_eq (chunk : Nat) (hc : chunk ≠ 0) :
    ∀ (rows : List (List String)) (written : Nat),
      ∃ msgs, writeCsvGo chunk written rows =
        some (csvBody rows, msgs, written + rows.length) := by
  intro rows
  induction rows with
  | nil => intro written; exact ⟨[], by simp [writeCsvGo, csvBody]⟩
  | cons r rs ih =>
    intro written
    obtain ⟨msgs, hm⟩ := ih (written + 1)
    refine ⟨if (written + 1) % chunk = 0 then (written + 1) :: msgs else msgs, ?_⟩
    simp only [writeCsvGo, if_neg hc, hm, csvBody, List.length_cons]
    rw [show written + 1 + rs.length = written + (rs.length + 1) from by omega]

/-- C8: for any input rows whose fields contain no line terminator,
`write_csv` writes a file whose non-header line count is exactly the
row count, returns that count, and both the file contents and the
return value are independent of the progress chunk size. -/
theorem c8_write_csv (header : List String) (rows : List (List String))
    (c1 c2 : Nat) (hc1 : 1 ≤ c1) (hc2 : 1 ≤ c2)
    (hh : ∀ f ∈ header, '\n' ∉ f.data)
    (hr : ∀ r ∈ rows, ∀ f ∈ r, '\n' ∉ f.data) :
    ∃ file msgs1 msgs2,
      write_csv header rows c1 = some (file, msgs1, rows.length) ∧
      write_csv header rows c2 = some (file, msgs2, rows.length) ∧
      nonHeaderLines file = rows.length := by
  obtain ⟨m1, h1⟩ := writeCsvGo_eq c1 (by omega) rows 0
  obtain ⟨m2, h2⟩ := writeCsvGo_eq c2 (by omega) rows 0
  refine ⟨csvLine header ++ "\r\n" ++ csvBody rows, m1, m2, ?_, ?_, ?_⟩
  · simp only [write_csv, h1, Nat.zero_add]
  · simp only [write_csv, h2, Nat.zero_add]
  · unfold nonHeaderLines
    rw [countNl_append, countNl_append,
      countNl_of_no_nl (csvLine_no_nl hh),
      show countNl "\r\n" = 1 from by decide,
      countNl_csvBody rows hr]
    omega

theorem c8_witness :
    ∃ file msgs1 msgs2,
      write_csv ["a"] [["x"], ["y"]] 1 = some (file, msgs1, [["x"], ["y"]].length) ∧
      write_csv ["a"] [["x"], ["y"]] 5 = some (file, msgs2, [["x"], ["y"]].length) ∧
      nonHeaderLines file = [["x"], ["y"]].length :=
  c8_write_csv ["a"] [["x"], ["y"]] 1 5 (by norm_num) (by norm_num)
    (by decide) (by decide)

/-- C1 (amended): two runs with the same seed-derived draw streams,
the same counts, and the same start instant produce byte-identical
files.  As the counterexample shows, equality of the start instants is
necessary: `daterange` reads the wall clock, so the orders file
depends on when the run starts even under seed 42. -/
theorem c1_determinism_same_clock (corp : NameCorpus) (s f : Nat → ℚ)
    (nC nP nO : Nat) (a : ℚ) (now1 now2 : Int) (h : now1 = now2) :
    runPipeline corp s f nC nP nO a now1 = runPipeline corp s f nC nP nO a now2 := by
  subst h
  rfl

theorem c1_witness :
    runPipeline sampleCorpus zeroStream zeroStream 1 1 1 3 1700000000 =
      runPipeline sampleCorpus zeroStream zeroStream 1 1 1 3 1700000000 :=
  c1_determinism_same_clock sampleCorpus zeroStream zeroStream 1 1 1 3
    1700000000 1700000000 rfl

/-- C1 counterexample: with seed stream, counts, and corpus all fixed,
starting the run one second later changes the bytes of `orders.csv`
(the order timestamp), so the outputs are not independent of the start
time. -/
theorem c1_counterexample :
    runPipeline sampleCorpus zeroStream zeroStream 1 1 1 3 1700000000 ≠
      runPipeline sampleCorpus zeroStream zeroStream 1 1 1 3 1700000001 := by
  decide

theorem gen_orders_zero_cust (now : Int) (n : Nat) (hn : n ≠ 0) (g : Rng) :
    gen_orders now n 0 g = none := by
  cases n with
  | zero => exact absurd rfl hn
  | succ m =>
    norm_num [gen_orders, gen_orders_go, pyrandint]

theorem write_csv_chunk_eq (header : List String) (rows : List (List String)) :
    ∃ msgs, write_csv header rows 100000 =
      some (csvLine header ++ "\r\n" ++ csvBody rows, msgs, rows.length) := by
  obtain ⟨m, hm⟩ := writeCsvGo_eq 100000 (by norm_num) rows 0
  refine ⟨m, ?_⟩
  simp only [write_csv, hm, Nat.zero_add]

/-- C2 (amended): requesting 0 customers makes the customers producer
emit no rows, the customers file is header-only and reports 0 rows
written; but the run as a whole still raises: with any positive order
count (the default is positive) the orders stage calls
`randint(1, 0)`, which raises `ValueError`. -/
theorem c2_zero_customers (corp : NameCorpus) (today : Int) (fk : Faker) (g : Rng) :
    (gen_customers corp today fk g 0).1 = [] ∧
    (∃ msgs,
      write_csv customersHeader
          ((gen_customers corp today fk g 0).1.map customerFields) 100000 =
        some (csvLine customersHeader ++ "\r\n", msgs, 0)) ∧
    (∀ (now : Int) (n : Nat), n ≠ 0 → ∀ g2 : Rng, gen_orders now n 0 g2 = none) := by
  refine ⟨rfl, ?_, ?_⟩
  · obtain ⟨m, hm⟩ := write_csv_chunk_eq customersHeader []
    refine ⟨m, ?_⟩
    simpa [csvBody] using hm
  · intro now n hn g2
    exact gen_orders_zero_cust now n hn g2

theorem c2_witness :
    gen_orders 1700000000 1 0 ⟨zeroStream, 0⟩ = none :=
  (c2_zero_customers sampleCorpus 0 ⟨zeroStream, 0⟩ ⟨zeroStream, 0⟩).2.2
    1700000000 1 (by norm_num) ⟨zeroStream, 0⟩

theorem runPipeline_zero_cust (corp : NameCorpus) (s f : Nat → ℚ)
    (nP nO : Nat) (hn : nO ≠ 0) (a : ℚ) (now : Int) :
    runPipeline corp s f 0 nP nO a now = none := by
  obtain ⟨m1, hw1⟩ := write_csv_chunk_eq productsHeader
    ((gen_products (now.ediv 86400) ⟨f, 0⟩ ⟨s, 0⟩ nP).1.map productFields)
  obtain ⟨m2, hw2⟩ := write_csv_chunk_eq customersHeader []
  simp only [runPipeline, gen_customers, gen_customers_go, List.map_nil, hw1, hw2,
    gen_orders_zero_cust now nO hn]

/-- C2 counterexample: with 0 customers and the default (positive)
product and order counts, the pipeline raises (returns `none`): the
orders stage samples a customer id from the empty range `1..0`. -/
theorem c2_counterexample :
    runPipeline sampleCorpus zeroStream zeroStream 0 1200000 2000000 3 1700000000 =
      none :=
  runPipeline_zero_cust sampleCorpus zeroStream zeroStream 1200000 2000000
    (by norm_num) 3 1700000000
